import Mathlib

/-!
Verification of the resilient inference orchestration layer of the
`dspy_gepa_demo` repository (`src/patterns.py` and `scripts/modules.py`)
against its natural-language specification.

The Python code is shallowly embedded below:
* strings are Lean `String`s; Python `s.strip().lower()` is `pyNorm`
  (an ASCII model: `Char.toLower` lowercases only `A`–`Z`, which agrees
  with Python on every input considered here);
* `needle in hay` (Python substring test) is `containsSubStr`;
* an LLM call that may raise is an `Except String (String × String)`
  value (error message, or raw `(category, priority)` output);
* Python floats (delays, confidences, rewards) are modelled as `ℚ`;
  every arithmetic operation performed on them here (`+`, `* 2 ** k`,
  `/`, `0.5`) is exact in both representations for the values involved;
* `time.sleep` and `print` are effects: the retry embedding records the
  slept delays in a trace instead of sleeping.
-/

/-- Characters of a string, lowercased ASCII-style: models Python `.lower()`. -/
def pyLower (s : String) : String := ⟨s.data.map Char.toLower⟩

/-- Models Python `.strip()`: removes leading and trailing whitespace. -/
def pyStrip (s : String) : String :=
  ⟨((s.data.dropWhile Char.isWhitespace).reverse.dropWhile Char.isWhitespace).reverse⟩

/-- Models the Python idiom `s.strip().lower()` used throughout `patterns.py`. -/
def pyNorm (s : String) : String := pyLower (pyStrip s)

/-- `startsWithList needle hay`: `hay` begins with `needle`. -/
def startsWithList : List Char → List Char → Bool
  | [], _ => true
  | _ :: _, [] => false
  | a :: as, b :: bs => a == b && startsWithList as bs

/-- `containsSubList needle hay`: `needle` occurs contiguously inside `hay`. -/
def containsSubList (needle : List Char) : List Char → Bool
  | [] => startsWithList needle []
  | c :: t => startsWithList needle (c :: t) || containsSubList needle t

/-- Models the Python substring test `needle in hay`. -/
def containsSubStr (needle hay : String) : Bool :=
  containsSubList needle.data hay.data

/-- `data.py`: the eight canonical ticket categories. -/
def CATEGORIES : List String :=
  ["Hardware", "Software", "Network", "Application",
   "Infrastructure", "Account", "Email", "Peripherals"]

/-- `data.py`: the five canonical priorities. -/
def PRIORITIES : List String := ["Low", "Medium", "High", "Urgent", "Critical"]

/-- The substring keywords of the category fuzzy-match chain in
`ValidatedTicketClassifier.validate_and_correct` (`patterns.py` lines 48–55),
in source order. -/
def CATEGORY_KEYWORDS : List String :=
  ["hard", "matér", "soft", "logic", "réseau", "network", "compte", "account"]

/-- The substring keywords of the priority fuzzy-match chain
(`patterns.py` lines 66–73), in source order. -/
def PRIORITY_KEYWORDS : List String :=
  ["critic", "critique", "urgent", "high", "haut", "medium", "moyen"]

/-- The category half of `ValidatedTicketClassifier.validate_and_correct`
(`patterns.py` lines 40–61).  Returns the corrected category together with
the contribution of this field to `is_valid` (`false` exactly when the
default branch fires).  In the in-vocabulary branch the Python code runs
`next(c for c in CATEGORIES if c.lower() == category_lower)`, which the
guard makes total; `Option.getD` supplies a never-used fallback. -/
def validateCategory (category : String) : String × Bool :=
  let cl := pyNorm category
  if CATEGORIES.any (fun c => pyLower c == cl) then
    ((CATEGORIES.find? (fun c => pyLower c == cl)).getD category, true)
  else if containsSubStr "hard" cl || containsSubStr "matér" cl then ("Hardware", true)
  else if containsSubStr "soft" cl || containsSubStr "logic" cl then ("Software", true)
  else if containsSubStr "réseau" cl || containsSubStr "network" cl then ("Network", true)
  else if containsSubStr "compte" cl || containsSubStr "account" cl then ("Account", true)
  else ("Application", false)

/-- The priority half of `validate_and_correct` (`patterns.py` lines 41–79). -/
def validatePriority (priority : String) : String × Bool :=
  let pl := pyNorm priority
  if PRIORITIES.any (fun p => pyLower p == pl) then
    ((PRIORITIES.find? (fun p => pyLower p == pl)).getD priority, true)
  else if containsSubStr "critic" pl || containsSubStr "critique" pl then ("Critical", true)
  else if containsSubStr "urgent" pl then ("Urgent", true)
  else if containsSubStr "high" pl || containsSubStr "haut" pl then ("High", true)
  else if containsSubStr "medium" pl || containsSubStr "moyen" pl then ("Medium", true)
  else ("Low", false)

/-- `ValidatedTicketClassifier.validate_and_correct` (`patterns.py` lines 33–81).
The Python body interleaves the two fields but they never interact: `is_valid`
starts `True` and is set to `False` exactly by the two default branches, so it
equals the conjunction of the two per-field flags. -/
def validate_and_correct (category priority : String) : String × String × Bool :=
  ((validateCategory category).1, (validatePriority priority).1,
    (validateCategory category).2 && (validatePriority priority).2)

/-- The raw `(category, priority)` output of one underlying LLM call. -/
abbrev RawPair := String × String

/-- The successful result of `RetryTicketClassifier.forward`
(`patterns.py` lines 127–131). -/
structure RetryOk where
  category : String
  priority : String
  attempts : Nat
deriving DecidableEq

deriving instance DecidableEq for Except

/-- Observable behaviour of one `RetryTicketClassifier.forward` call:
how many times the underlying classifier was invoked, which delays were
slept (in order), and the final outcome. -/
structure RetryTrace where
  calls : Nat
  delays : List ℚ
  outcome : Except String RetryOk
deriving DecidableEq

/-- The message of `patterns.py` line 149,
`f"Failed after {self.max_retries} attempts: {last_error}"`
(`last_error` is `None` only when the loop body never ran). -/
def failMsg (maxRetries : Nat) (lastError : Option String) : String :=
  "Failed after " ++ toString maxRetries ++ " attempts: " ++
    (match lastError with | none => "None" | some e => e)

/-- The loop of `RetryTicketClassifier.forward` (`patterns.py` lines 118–149).
`op k` is the outcome of the classifier call made on iteration `k` (0-based);
`remaining` is the number of loop iterations left, i.e. `maxRetries - attempt`
(structural recursion on it replaces `for attempt in range(max_retries)`).
`remaining = 0` after a failure models `attempt == self.max_retries - 1`:
the loop breaks and line 149 raises with the last error.  The outer
`| _, 0` case is the loop body never running (only possible when
`maxRetries = 0`), where Python formats `last_error = None`. -/
def retryRun (op : Nat → Except String RawPair) (initialDelay : ℚ)
    (maxRetries : Nat) : Nat → Nat → RetryTrace
  | _, 0 => ⟨0, [], Except.error (failMsg maxRetries none)⟩
  | attempt, remaining + 1 =>
    match op attempt with
    | Except.ok r => ⟨1, [], Except.ok ⟨r.1, r.2, attempt + 1⟩⟩
    | Except.error e =>
      if remaining = 0 then
        ⟨1, [], Except.error (failMsg maxRetries (some e))⟩
      else
        let t := retryRun op initialDelay maxRetries (attempt + 1) remaining
        ⟨t.calls + 1, initialDelay * 2 ^ attempt :: t.delays, t.outcome⟩

/-- `RetryTicketClassifier.forward`: start at attempt 0 with the full budget. -/
def retryForward (op : Nat → Except String RawPair) (initialDelay : ℚ)
    (maxRetries : Nat) : RetryTrace :=
  retryRun op initialDelay maxRetries 0 maxRetries

/-- The successful result of `FallbackTicketClassifier.forward`
(`patterns.py` lines 177–181 and 193–197). -/
structure FbOut where
  category : String
  priority : String
  model_used : String
deriving DecidableEq

/-- `FallbackTicketClassifier.forward` (`patterns.py` lines 170–201),
with the two model calls abstracted as their outcomes. -/
def fallbackForward (primary fallback : Except String RawPair) :
    Except String FbOut :=
  match primary with
  | Except.ok r => Except.ok ⟨r.1, r.2, "primary"⟩
  | Except.error _ =>
    match fallback with
    | Except.ok r => Except.ok ⟨r.1, r.2, "fallback"⟩
    | Except.error fallbackError =>
      Except.error ("Both models failed. Fallback error: " ++ fallbackError)

/-- One configured ensemble member: the outcome of its classifier call and
its integer weight (`patterns.py` line 211: `List[Tuple[dspy.LM, int]]`). -/
abbrev Member := Except String RawPair × Int

/-- Is this `Except` an error? (Python: the call raised.) -/
def exceptIsError {ε α : Type} : Except ε α → Bool
  | Except.error _ => true
  | Except.ok _ => false

/-- Ballots cast by one member (`patterns.py` lines 224–239): a failure is
caught and contributes nothing; a success appends its normalized output once
per unit of weight (`for _ in range(weight)` — `Int.toNat` models `range`,
which is empty for non-positive weights). -/
def memberBallots (m : Member) : List RawPair :=
  match m.1 with
  | Except.error _ => []
  | Except.ok r => List.replicate m.2.toNat (pyNorm r.1, pyNorm r.2)

/-- The `predictions` list accumulated by `EnsembleTicketClassifier.forward`. -/
def ballots (ms : List Member) : List RawPair :=
  (ms.map memberBallots).flatten

/-- `categories = [p['category'] for p in predictions]` (line 245). -/
def ballotCats (ms : List Member) : List String := (ballots ms).map Prod.fst

/-- `priorities = [p['priority'] for p in predictions]` (line 250). -/
def ballotPris (ms : List Member) : List String := (ballots ms).map Prod.snd

/-- Number of occurrences of `v` in `l`: the `Counter` count of `v`. -/
def countOcc (l : List String) (v : String) : Nat :=
  match l with
  | [] => 0
  | x :: xs => (if x = v then 1 else 0) + countOcc xs v

/-- Left fold keeping the current best ballot value, replacing it only on a
strictly larger count.  `pick l best rest` scans `rest` with counts taken
over the full ballot list `l`. -/
def pick (l : List String) : String → List String → String
  | best, [] => best
  | best, x :: xs => pick l (if countOcc l best < countOcc l x then x else best) xs

/-- `Counter(l).most_common(1)[0][0]` (`patterns.py` lines 246–252).
CPython's `most_common` stably sorts the counter's `(value, count)` pairs —
kept in first-occurrence order — by descending count, so it returns the value
with the maximal count whose first occurrence in `l` is earliest.  A single
scan of `l` that replaces the running best only on a strictly greater count
returns exactly that value (later duplicates of a value never beat it
strictly, so working on `l` itself rather than its deduplication is
equivalent).  Python raises `IndexError` on an empty list; the `forward`
guard makes that unreachable and `""` is a dummy. -/
def mostCommon (l : List String) : String :=
  match l with
  | [] => ""
  | v :: vs => pick l v vs

/-- `next((c for c in vocab if c.lower() == w), w)` (lines 255–256):
restore canonical casing when the winner is in the vocabulary, otherwise
return the winner unchanged. -/
def vocabCased (vocab : List String) (w : String) : String :=
  (vocab.find? (fun c => pyLower c == w)).getD w

/-- The result record of `EnsembleTicketClassifier.forward` (lines 262–268). -/
structure EnsembleResult where
  category : String
  priority : String
  category_confidence : ℚ
  priority_confidence : ℚ
  num_models : Nat
deriving DecidableEq

/-- `EnsembleTicketClassifier.forward` (`patterns.py` lines 220–268). -/
def ensembleForward (ms : List Member) : Except String EnsembleResult :=
  if ballots ms = [] then Except.error "No model could make a prediction"
  else
    Except.ok
      { category := vocabCased CATEGORIES (mostCommon (ballotCats ms)),
        priority := vocabCased PRIORITIES (mostCommon (ballotPris ms)),
        category_confidence :=
          (countOcc (ballotCats ms) (mostCommon (ballotCats ms)) : ℚ) /
            ((ballots ms).length : ℚ),
        priority_confidence :=
          (countOcc (ballotPris ms) (mostCommon (ballotPris ms)) : ℚ) /
            ((ballots ms).length : ℚ),
        num_models := ms.length }

/-- A prediction as seen by `RefinedTicketClassifier._reward_function`
(`scripts/modules.py` lines 174–197): each field is `none` when the Python
object lacks the attribute (`hasattr` is false). -/
structure PredOut where
  category : Option String
  priority : Option String

/-- `RefinedTicketClassifier._reward_function` (`scripts/modules.py`
lines 174–197): `score = 0.0`, plus `0.5` per present-and-valid field. -/
def reward_function (p : PredOut) : ℚ :=
  let s0 : ℚ := 0
  let s1 :=
    match p.category with
    | some c =>
      if CATEGORIES.any (fun v => pyLower v == pyNorm c) then s0 + 1 / 2 else s0
    | none => s0
  match p.priority with
  | some pr =>
    if PRIORITIES.any (fun v => pyLower v == pyNorm pr) then s1 + 1 / 2 else s1
  | none => s1

/-- The category field is present and (after strip/lower) in the vocabulary. -/
def categoryFieldValid (p : PredOut) : Bool :=
  match p.category with
  | some c => CATEGORIES.any (fun v => pyLower v == pyNorm c)
  | none => false

/-- The priority field is present and (after strip/lower) in the vocabulary. -/
def priorityFieldValid (p : PredOut) : Bool :=
  match p.priority with
  | some pr => PRIORITIES.any (fun v => pyLower v == pyNorm pr)
  | none => false

lemma validateCategory_mem (c : String) : (validateCategory c).1 ∈ CATEGORIES := by
  simp only [validateCategory]
  by_cases h0 : (CATEGORIES.any fun v => pyLower v == pyNorm c) = true
  · rw [if_pos h0]
    have hs : (CATEGORIES.find? fun v => pyLower v == pyNorm c).isSome = true := by
      rw [List.find?_isSome]
      simpa [List.any_eq_true] using h0
    obtain ⟨x, hx⟩ := Option.isSome_iff_exists.mp hs
    rw [hx]
    exact List.mem_of_find?_eq_some hx
  · rw [if_neg h0]
    split_ifs <;> decide

lemma validatePriority_mem (p : String) : (validatePriority p).1 ∈ PRIORITIES := by
  simp only [validatePriority]
  by_cases h0 : (PRIORITIES.any fun v => pyLower v == pyNorm p) = true
  · rw [if_pos h0]
    have hs : (PRIORITIES.find? fun v => pyLower v == pyNorm p).isSome = true := by
      rw [List.find?_isSome]
      simpa [List.any_eq_true] using h0
    obtain ⟨x, hx⟩ := Option.isSome_iff_exists.mp hs
    rw [hx]
    exact List.mem_of_find?_eq_some hx
  · rw [if_neg h0]
    split_ifs <;> decide

lemma validateCategory_roundtrip : ∀ v ∈ CATEGORIES, validateCategory v = (v, true) := by
  intro v hv
  fin_cases hv <;> decide

lemma validatePriority_roundtrip : ∀ v ∈ PRIORITIES, validatePriority v = (v, true) := by
  intro v hv
  fin_cases hv <;> decide

lemma validateCategory_default (c : String)
    (h0 : (CATEGORIES.any fun v => pyLower v == pyNorm c) = false)
    (h1 : (CATEGORY_KEYWORDS.all fun k => !containsSubStr k (pyNorm c)) = true) :
    validateCategory c = ("Application", false) := by
  have hall := List.all_eq_true.mp h1
  have k1 : containsSubStr "hard" (pyNorm c) = false := by
    simpa using hall "hard" (by decide)
  have k2 : containsSubStr "matér" (pyNorm c) = false := by
    simpa using hall "matér" (by decide)
  have k3 : containsSubStr "soft" (pyNorm c) = false := by
    simpa using hall "soft" (by decide)
  have k4 : containsSubStr "logic" (pyNorm c) = false := by
    simpa using hall "logic" (by decide)
  have k5 : containsSubStr "réseau" (pyNorm c) = false := by
    simpa using hall "réseau" (by decide)
  have k6 : containsSubStr "network" (pyNorm c) = false := by
    simpa using hall "network" (by decide)
  have k7 : containsSubStr "compte" (pyNorm c) = false := by
    simpa using hall "compte" (by decide)
  have k8 : containsSubStr "account" (pyNorm c) = false := by
    simpa using hall "account" (by decide)
  simp [validateCategory, h0, k1, k2, k3, k4, k5, k6, k7, k8]

lemma validatePriority_default (p : String)
    (h0 : (PRIORITIES.any fun v => pyLower v == pyNorm p) = false)
    (h1 : (PRIORITY_KEYWORDS.all fun k => !containsSubStr k (pyNorm p)) = true) :
    validatePriority p = ("Low", false) := by
  have hall := List.all_eq_true.mp h1
  have k1 : containsSubStr "critic" (pyNorm p) = false := by
    simpa using hall "critic" (by decide)
  have k2 : containsSubStr "critique" (pyNorm p) = false := by
    simpa using hall "critique" (by decide)
  have k3 : containsSubStr "urgent" (pyNorm p) = false := by
    simpa using hall "urgent" (by decide)
  have k4 : containsSubStr "high" (pyNorm p) = false := by
    simpa using hall "high" (by decide)
  have k5 : containsSubStr "haut" (pyNorm p) = false := by
    simpa using hall "haut" (by decide)
  have k6 : containsSubStr "medium" (pyNorm p) = false := by
    simpa using hall "medium" (by decide)
  have k7 : containsSubStr "moyen" (pyNorm p) = false := by
    simpa using hall "moyen" (by decide)
  simp [validatePriority, h0, k1, k2, k3, k4, k5, k6, k7]

/-- C2 (counterexample): the spec's end-to-end scenario is wrong on the code.
For the raw pair `("netwrk", "urgnt")` the fuzzy heuristics do NOT fire —
the Python tests are `'network' in 'netwrk'` and `'urgent' in 'urgnt'`, i.e.
substring containment of the full keyword in the raw value, and neither
misspelling contains its keyword — so the validator does not return
`("Network", "Urgent")`. -/
theorem netwrk_urgnt_not_heuristically_matched :
    ¬((validate_and_correct "netwrk" "urgnt").1 = "Network" ∧
      (validate_and_correct "netwrk" "urgnt").2.1 = "Urgent") := by decide

/-- C2 (amended): on raw `("netwrk", "urgnt")` neither field matches the
vocabulary or any substring keyword, so `validate_and_correct` returns the
fixed defaults `("Application", "Low")` with `is_valid = false`. -/
theorem netwrk_urgnt_fall_to_defaults :
    validate_and_correct "netwrk" "urgnt" = ("Application", "Low", false) := by decide

/-- C3 (counterexample): the claimed priority default `"Medium"` is wrong.
`"zzz"` matches no vocabulary entry and no priority keyword, yet the
returned priority is `"Low"`, not `"Medium"` (`patterns.py` line 75). -/
theorem priority_default_is_low_not_medium :
    (PRIORITIES.any fun v => pyLower v == pyNorm "zzz") = false ∧
    (PRIORITY_KEYWORDS.all fun k => !containsSubStr k (pyNorm "zzz")) = true ∧
    (validate_and_correct "qwz" "zzz").2.1 = "Low" ∧
    (validate_and_correct "qwz" "zzz").2.1 ≠ "Medium" := by decide

/-- C3 (amended): per field — for every raw pair, if the category neither
matches the vocabulary (case/whitespace-insensitively) nor contains any
category keyword, the returned category is the fixed default
`"Application"` and the result is marked invalid; independently, if the
priority neither matches the vocabulary nor contains any priority keyword,
the returned priority is the fixed default `"Low"` (not `"Medium"`) and the
result is marked invalid.  Each implication holds regardless of the other
field. -/
theorem validator_unmatched_fields_get_defaults (c p : String) :
    ((CATEGORIES.any fun v => pyLower v == pyNorm c) = false →
      (CATEGORY_KEYWORDS.all fun k => !containsSubStr k (pyNorm c)) = true →
      (validate_and_correct c p).1 = "Application" ∧
        (validate_and_correct c p).2.2 = false) ∧
    ((PRIORITIES.any fun v => pyLower v == pyNorm p) = false →
      (PRIORITY_KEYWORDS.all fun k => !containsSubStr k (pyNorm p)) = true →
      (validate_and_correct c p).2.1 = "Low" ∧
        (validate_and_correct c p).2.2 = false) := by
  constructor
  · intro hc0 hc1
    have hc := validateCategory_default c hc0 hc1
    constructor
    · show (validateCategory c).1 = "Application"
      rw [hc]
    · show ((validateCategory c).2 && (validatePriority p).2) = false
      rw [hc]
      exact Bool.false_and _
  · intro hp0 hp1
    have hp := validatePriority_default p hp0 hp1
    constructor
    · show (validatePriority p).1 = "Low"
      rw [hp]
    · show ((validateCategory c).2 && (validatePriority p).2) = false
      rw [hp]
      exact Bool.and_false _

/-- Witness for `validator_unmatched_fields_get_defaults` at mixed pairs:
in `("zzz", "high")` only the category is unmatched (the priority `"high"`
is in vocabulary), yet the category defaults to `"Application"` and the
result is invalid; in `("network", "zzz")` only the priority is unmatched,
yet it defaults to `"Low"` and the result is invalid. -/
theorem validator_unmatched_fields_get_defaults_witness :
    ((validate_and_correct "zzz" "high").1 = "Application" ∧
      (validate_and_correct "zzz" "high").2.2 = false) ∧
    ((validate_and_correct "network" "zzz").2.1 = "Low" ∧
      (validate_and_correct "network" "zzz").2.2 = false) :=
  ⟨(validator_unmatched_fields_get_defaults "zzz" "high").1 (by decide) (by decide),
   (validator_unmatched_fields_get_defaults "network" "zzz").2 (by decide) (by decide)⟩

/-- C8 (counterexample): re-validating the validator's own output is not the
identity on the full result: for `("zzz", "zzz")` the first pass returns
`("Application", "Low", false)` but the second pass reports `is_valid = true`,
because the corrected fields are now in vocabulary. -/
theorem validity_flag_not_idempotent :
    validate_and_correct (validate_and_correct "zzz" "zzz").1
        (validate_and_correct "zzz" "zzz").2.1 ≠
      validate_and_correct "zzz" "zzz" := by decide

/-- C8 (amended): the category and priority components of
`validate_and_correct` are idempotent — re-validating its output returns the
same category and priority — but the validity flag of the second pass is
always `true`, so idempotence of the full triple fails exactly on the flag. -/
theorem validator_fields_idempotent (c p : String) :
    validate_and_correct (validate_and_correct c p).1 (validate_and_correct c p).2.1 =
      ((validate_and_correct c p).1, (validate_and_correct c p).2.1, true) := by
  have hc := validateCategory_roundtrip _ (validateCategory_mem c)
  have hp := validatePriority_roundtrip _ (validatePriority_mem p)
  show validate_and_correct (validateCategory c).1 (validatePriority p).1 = _
  rw [validate_and_correct, hc, hp]
  rfl

lemma retryRun_allfail (errs : Nat → String) (initD : ℚ) (maxR : Nat) :
    ∀ (remaining attempt : Nat), 1 ≤ remaining →
      retryRun (fun k => Except.error (errs k)) initD maxR attempt remaining =
        ⟨remaining, (List.range' attempt (remaining - 1)).map fun k => initD * 2 ^ k,
          Except.error (failMsg maxR (some (errs (attempt + remaining - 1))))⟩ := by
  intro remaining
  induction remaining with
  | zero => intro attempt h; exact absurd h (by omega)
  | succ n ih =>
    intro attempt _
    by_cases hn : n = 0
    · subst hn
      simp [retryRun, List.range']
    · have h1 : 1 ≤ n := Nat.one_le_iff_ne_zero.mpr hn
      simp only [retryRun, if_neg hn]
      rw [ih (attempt + 1) h1]
      have hr : List.range' attempt n =
          attempt :: List.range' (attempt + 1) (n - 1) := by
        conv_lhs => rw [show n = (n - 1) + 1 by omega]
        rw [List.range'_succ]
      have hn1 : attempt + 1 + n - 1 = attempt + (n + 1) - 1 := by omega
      simp [hr, hn1]

/-- C5: if the operation fails on every invocation and `maxAttempts ≥ 1`, the
retry executor invokes the operation exactly `maxAttempts` times, sleeps
`initialDelay * 2^(k-1)` after failed attempt `k` for each `k < maxAttempts`
(the delays list is `[initialDelay * 2^0, …, initialDelay * 2^(maxAttempts-2)]`),
and raises a terminal failure carrying the last underlying error. -/
theorem retry_bound_exact (errs : Nat → String) (maxR : Nat) (initD : ℚ)
    (h : 1 ≤ maxR) :
    (retryForward (fun k => Except.error (errs k)) initD maxR).calls = maxR ∧
    (retryForward (fun k => Except.error (errs k)) initD maxR).delays =
      (List.range (maxR - 1)).map (fun k => initD * 2 ^ k) ∧
    (retryForward (fun k => Except.error (errs k)) initD maxR).outcome =
      Except.error (failMsg maxR (some (errs (maxR - 1)))) := by
  rw [retryForward, retryRun_allfail errs initD maxR maxR 0 h]
  refine ⟨rfl, by rw [List.range_eq_range'], by simp⟩

/-- Witness for `retry_bound_exact` at the spec's own instance
`maxAttempts = 3`, `initialDelay = 1.0`: exactly 3 calls, delays `[1.0, 2.0]`
(so the second delay is `2.0`), and the terminal error carries the last
underlying error. -/
theorem retry_bound_exact_witness :
    (retryForward (fun _ => Except.error "boom") 1 3).calls = 3 ∧
    (retryForward (fun _ => Except.error "boom") 1 3).delays = [1, 2] ∧
    (retryForward (fun _ => Except.error "boom") 1 3).outcome =
      Except.error "Failed after 3 attempts: boom" := by
  obtain ⟨h1, h2, h3⟩ := retry_bound_exact (fun _ => "boom") 3 1 (by norm_num)
  refine ⟨h1, ?_, by rw [h3]; decide⟩
  rw [h2, (by decide : List.range (3 - 1) = [0, 1])]
  norm_num

/-- C4 (counterexample): when both models fail, the raised message is built
only from the fallback error (`patterns.py` line 201); the primary failure
cause does not occur in it, so the message does not reference both causes. -/
theorem both_failed_message_drops_primary_cause :
    fallbackForward (Except.error "primary exploded") (Except.error "fallback timeout") =
      Except.error "Both models failed. Fallback error: fallback timeout" ∧
    containsSubStr "primary exploded"
      "Both models failed. Fallback error: fallback timeout" = false := by decide

/-- C4 (amended): if the primary fails and the fallback succeeds the result is
tagged `model_used = "fallback"`; if both fail, the raised message is exactly
`"Both models failed. Fallback error: " ++ fallbackCause` — it references the
fallback cause but drops the primary cause. -/
theorem fallback_tagging_and_error_message (pe fe : String) (r : RawPair) :
    fallbackForward (Except.error pe) (Except.ok r) =
      Except.ok ⟨r.1, r.2, "fallback"⟩ ∧
    fallbackForward (Except.error pe) (Except.error fe) =
      Except.error ("Both models failed. Fallback error: " ++ fe) := ⟨rfl, rfl⟩

/-- A single-member ensemble whose raw category `"weird"` is off-vocabulary. -/
def offVocabMembers : List Member := [(Except.ok ("weird", "low"), 1)]

/-- C1 (counterexample): the retry wrapper returns the operation's raw fields
unvalidated — a successful first attempt with raw output
`("netwrk", "urgnt")` is returned to the caller even though neither field is
in the vocabulary. -/
theorem retry_returns_off_vocabulary_fields :
    (retryForward (fun _ => Except.ok ("netwrk", "urgnt")) 1 3).outcome =
      Except.ok ⟨"netwrk", "urgnt", 1⟩ ∧
    "netwrk" ∉ CATEGORIES ∧ "urgnt" ∉ PRIORITIES := by decide

/-- C1 (amended): only the validated wrapper guarantees vocabulary
membership: `validate_and_correct` always returns an in-vocabulary category
and priority, while the retry and fallback wrappers pass the operation's raw
fields through unchanged, and the ensemble can return an off-vocabulary
category (the lowercased winning ballot) when the winner matches no
vocabulary entry. -/
theorem only_validated_wrapper_normalizes :
    (∀ c p, (validate_and_correct c p).1 ∈ CATEGORIES ∧
      (validate_and_correct c p).2.1 ∈ PRIORITIES) ∧
    (∀ (raw : RawPair) (initD : ℚ) (maxR : Nat), 1 ≤ maxR →
      (retryForward (fun _ => Except.ok raw) initD maxR).outcome =
        Except.ok ⟨raw.1, raw.2, 1⟩) ∧
    (∀ (raw : RawPair) (fb : Except String RawPair),
      fallbackForward (Except.ok raw) fb = Except.ok ⟨raw.1, raw.2, "primary"⟩) ∧
    ensembleForward offVocabMembers = Except.ok ⟨"weird", "Low", 1, 1, 1⟩ ∧
    "weird" ∉ CATEGORIES := by
  refine ⟨fun c p => ⟨validateCategory_mem c, validatePriority_mem p⟩,
    ?_, fun raw fb => rfl, ?_, by decide⟩
  · intro raw initD maxR h
    match maxR, h with
    | n + 1, _ => rfl
  · rw [ensembleForward, if_neg (by decide : ¬(ballots offVocabMembers = []))]
    simp only [Except.ok.injEq, EnsembleResult.mk.injEq]
    refine ⟨by decide, by decide, ?_, ?_, by decide⟩
    · rw [(by decide : countOcc (ballotCats offVocabMembers)
          (mostCommon (ballotCats offVocabMembers)) = 1),
        (by decide : (ballots offVocabMembers).length = 1)]
      norm_num
    · rw [(by decide : countOcc (ballotPris offVocabMembers)
          (mostCommon (ballotPris offVocabMembers)) = 1),
        (by decide : (ballots offVocabMembers).length = 1)]
      norm_num

/-- Witness for `only_validated_wrapper_normalizes`: the validated wrapper
normalizes the off-vocabulary input, and a two-attempt retry returns a
successful first attempt's fields unchanged. -/
theorem only_validated_wrapper_normalizes_witness :
    (validate_and_correct "netwrk" "urgnt").1 ∈ CATEGORIES ∧
    (retryForward (fun _ => Except.ok ("a", "b")) 1 2).outcome =
      Except.ok ⟨"a", "b", 1⟩ :=
  ⟨(only_validated_wrapper_normalizes.1 "netwrk" "urgnt").1,
   only_validated_wrapper_normalizes.2.1 ("a", "b") 1 2 (by norm_num)⟩

/-- `leOcc l v u`: the count of `u` in `l` is at most the count of `v`. -/
def leOcc (l : List String) (v u : String) : Bool :=
  decide (countOcc l u ≤ countOcc l v)

/-- `isTop l s v`: `v` has maximal count (over `l`) among the values of `s`. -/
def isTop (l s : List String) (v : String) : Bool := s.all (leOcc l v)

lemma isTop_cons (l : List String) (a : String) (s : List String) (v : String) :
    isTop l (a :: s) v = (leOcc l v a && isTop l s v) := by
  simp [isTop, List.all_cons]

lemma find_congr : ∀ (s : List String) (p q : String → Bool),
    (∀ a ∈ s, p a = q a) → s.find? p = s.find? q := by
  intro s
  induction s with
  | nil => intro p q _; rfl
  | cons a t ih =>
    intro p q h
    rw [List.find?_cons, List.find?_cons, h a (List.mem_cons_self a t),
      ih p q fun b hb => h b (List.mem_cons_of_mem a hb)]

lemma absorb_left (l : List String) (a b : String)
    (h : countOcc l a ≤ countOcc l b) (v : String) (t : Bool) :
    (leOcc l v a && (leOcc l v b && t)) = (leOcc l v b && t) := by
  simp only [leOcc]
  by_cases hb : countOcc l b ≤ countOcc l v
  · simp [decide_eq_true hb, decide_eq_true (le_trans h hb)]
  · simp [decide_eq_false hb]

lemma absorb_right (l : List String) (a b : String)
    (h : countOcc l b ≤ countOcc l a) (v : String) (t : Bool) :
    (leOcc l v a && (leOcc l v b && t)) = (leOcc l v a && t) := by
  simp only [leOcc]
  by_cases ha : countOcc l a ≤ countOcc l v
  · simp [decide_eq_true ha, decide_eq_true (le_trans h ha)]
  · simp [decide_eq_false ha]

/-- The strict-improvement scan `pick` returns the first element of
`best :: rest` whose count over `l` is maximal among `best :: rest`. -/
lemma pick_find (l : List String) :
    ∀ (rest : List String) (best : String),
      (best :: rest).find? (isTop l (best :: rest)) = some (pick l best rest) := by
  intro rest
  induction rest with
  | nil =>
    intro best
    simp [pick, isTop, leOcc, List.find?]
  | cons x xs ih =>
    intro best
    by_cases hbx : countOcc l best < countOcc l x
    · have hpick : pick l best (x :: xs) = pick l x xs := by
        simp only [pick]
        rw [if_pos hbx]
      rw [hpick, ← ih x]
      have hfb : isTop l (best :: x :: xs) best = false := by
        rw [isTop_cons, isTop_cons]
        have hx : leOcc l best x = false := by
          simp only [leOcc]
          exact decide_eq_false (not_le.mpr hbx)
        rw [hx, Bool.false_and, Bool.and_false]
      conv_lhs => rw [List.find?_cons, hfb]
      show List.find? (isTop l (best :: x :: xs)) (x :: xs) = _
      exact find_congr (x :: xs) _ _ fun a _ => by
        simp only [isTop_cons]
        exact absorb_left l best x (le_of_lt hbx) a (isTop l xs a)
    · have hxb : countOcc l x ≤ countOcc l best := not_lt.mp hbx
      have hpick : pick l best (x :: xs) = pick l best xs := by
        simp only [pick]
        rw [if_neg hbx]
      rw [hpick, ← ih best]
      rw [find_congr (best :: x :: xs) _ (isTop l (best :: xs)) fun a _ => by
        simp only [isTop_cons]
        exact absorb_right l best x hxb a (isTop l xs a)]
      by_cases hb : isTop l (best :: xs) best = true
      · simp only [List.find?_cons, hb]
      · have hbf : isTop l (best :: xs) best = false := by
          rwa [Bool.not_eq_true] at hb
        have hx : isTop l (best :: xs) x = false := by
          by_contra hne
          have htx : isTop l (best :: xs) x = true := by
            cases h' : isTop l (best :: xs) x
            · exact absurd h' hne
            · rfl
          rw [isTop_cons, Bool.and_eq_true] at htx
          obtain ⟨h1, h2⟩ := htx
          have hbest_le : countOcc l best ≤ countOcc l x := by
            simp only [leOcc] at h1
            exact of_decide_eq_true h1
          have heq : countOcc l x = countOcc l best := le_antisymm hxb hbest_le
          have hall : isTop l (best :: xs) best = true := by
            rw [isTop_cons, Bool.and_eq_true]
            refine ⟨by simp [leOcc], ?_⟩
            simp only [isTop, List.all_eq_true] at h2 ⊢
            intro u hu
            have hu' := h2 u hu
            simp only [leOcc] at hu' ⊢
            exact decide_eq_true (heq ▸ of_decide_eq_true hu')
          rw [hbf] at hall
          exact Bool.false_ne_true hall
        simp only [List.find?_cons, hbf, hx]

/-- `mostCommon l` is characterized as the first element of `l` attaining the
maximal count in `l`: exactly `Counter(l).most_common(1)[0][0]` (highest total
weight, ties resolved in favour of the first-encountered value). -/
lemma mostCommon_find (l : List String) (h : l ≠ []) :
    l.find? (isTop l l) = some (mostCommon l) := by
  match l, h with
  | v :: vs, _ => exact pick_find (v :: vs) vs v

/-- C6: whenever some member succeeds (with positive weight, so it casts at
least one ballot), the ensemble returns a result whose per-field winner is
exactly the first ballot value attaining the maximal accumulated weight
(`find?`/`isTop`: highest total weight, ties broken by the first-encountered
value in ballot order), whose reported confidence is that winning weight
divided by the total number of ballots cast by successful members, and whose
returned field is the case-normalized winner. -/
theorem ensemble_weighted_majority (ms : List Member)
    (h : ∃ m ∈ ms, exceptIsError m.1 = false ∧ 1 ≤ m.2) :
    ∃ r, ensembleForward ms = Except.ok r ∧
      (ballotCats ms).find? (isTop (ballotCats ms) (ballotCats ms)) =
        some (mostCommon (ballotCats ms)) ∧
      r.category = vocabCased CATEGORIES (mostCommon (ballotCats ms)) ∧
      r.category_confidence =
        (countOcc (ballotCats ms) (mostCommon (ballotCats ms)) : ℚ) /
          ((ballotCats ms).length : ℚ) ∧
      (ballotPris ms).find? (isTop (ballotPris ms) (ballotPris ms)) =
        some (mostCommon (ballotPris ms)) ∧
      r.priority = vocabCased PRIORITIES (mostCommon (ballotPris ms)) ∧
      r.priority_confidence =
        (countOcc (ballotPris ms) (mostCommon (ballotPris ms)) : ℚ) /
          ((ballotPris ms).length : ℚ) := by
  have hne : ballots ms ≠ [] := by
    obtain ⟨m, hm, hok, hw⟩ := h
    cases hm1 : m.1 with
    | error e => rw [hm1] at hok; simp [exceptIsError] at hok
    | ok r =>
      intro hnil
      rw [ballots] at hnil
      have hmem := List.flatten_eq_nil_iff.mp hnil (memberBallots m)
        (List.mem_map_of_mem _ hm)
      simp only [memberBallots, hm1] at hmem
      rw [List.replicate_eq_nil_iff] at hmem
      omega
  have hcne : ballotCats ms ≠ [] := by
    rw [ballotCats]
    intro hc
    exact hne (List.map_eq_nil_iff.mp hc)
  have hpne : ballotPris ms ≠ [] := by
    rw [ballotPris]
    intro hc
    exact hne (List.map_eq_nil_iff.mp hc)
  refine ⟨_, by rw [ensembleForward, if_neg hne], mostCommon_find _ hcne, rfl, ?_,
    mostCommon_find _ hpne, rfl, ?_⟩
  · show (countOcc (ballotCats ms) (mostCommon (ballotCats ms)) : ℚ) /
        ((ballots ms).length : ℚ) = _
    rw [ballotCats, List.length_map]
  · show (countOcc (ballotPris ms) (mostCommon (ballotPris ms)) : ℚ) /
        ((ballots ms).length : ℚ) = _
    rw [ballotPris, List.length_map]

/-- The spec's majority example: three weight-1 members voting
`{Hardware, Hardware, Software}` on category. -/
def majorityExample : List Member :=
  [(Except.ok ("Hardware", "Low"), 1), (Except.ok ("Hardware", "High"), 1),
   (Except.ok ("Software", "High"), 1)]

/-- Witness for `ensemble_weighted_majority` at `majorityExample`, plus the
spec's concrete number: the winning category's confidence is `2/3`. -/
theorem ensemble_weighted_majority_witness :
    (∃ r, ensembleForward majorityExample = Except.ok r ∧
      (ballotCats majorityExample).find?
          (isTop (ballotCats majorityExample) (ballotCats majorityExample)) =
        some (mostCommon (ballotCats majorityExample)) ∧
      r.category = vocabCased CATEGORIES (mostCommon (ballotCats majorityExample)) ∧
      r.category_confidence =
        (countOcc (ballotCats majorityExample) (mostCommon (ballotCats majorityExample)) : ℚ) /
          ((ballotCats majorityExample).length : ℚ) ∧
      (ballotPris majorityExample).find?
          (isTop (ballotPris majorityExample) (ballotPris majorityExample)) =
        some (mostCommon (ballotPris majorityExample)) ∧
      r.priority = vocabCased PRIORITIES (mostCommon (ballotPris majorityExample)) ∧
      r.priority_confidence =
        (countOcc (ballotPris majorityExample) (mostCommon (ballotPris majorityExample)) : ℚ) /
          ((ballotPris majorityExample).length : ℚ)) ∧
    (countOcc (ballotCats majorityExample) (mostCommon (ballotCats majorityExample)) : ℚ) /
        ((ballotCats majorityExample).length : ℚ) = 2 / 3 := by
  constructor
  · exact ensemble_weighted_majority majorityExample (by decide)
  · rw [(by decide : countOcc (ballotCats majorityExample)
        (mostCommon (ballotCats majorityExample)) = 2),
      (by decide : (ballotCats majorityExample).length = 3)]
    norm_num

/-- A one-member configuration whose member succeeds but has weight `0`. -/
def zeroWeightSuccess : List Member := [(Except.ok ("Hardware", "Low"), 0)]

/-- C7 (counterexample): a configured member can succeed yet the ensemble
still raises — a successful member with weight `0` casts no ballots
(`for _ in range(0)`), so `predictions` stays empty and line 242 raises even
though one member succeeded.  Hence "fails iff zero members succeed" is
wrong as stated. -/
theorem successful_zero_weight_member_still_fails :
    (∃ m ∈ zeroWeightSuccess, exceptIsError m.1 = false) ∧
    exceptIsError (ensembleForward zeroWeightSuccess) = true := by decide

/-- C7 (amended): the ensemble raises if and only if zero ballots were cast
(each member failure is caught and skipped, and a success with non-positive
weight casts nothing); in particular, when every configured weight is at
least 1, it raises exactly when every member fails, and returns a result
whenever at least one member succeeds. -/
theorem ensemble_error_iff_no_ballots (ms : List Member) :
    (exceptIsError (ensembleForward ms) = true ↔ ballots ms = []) ∧
    ((∀ m ∈ ms, 1 ≤ m.2) →
      (exceptIsError (ensembleForward ms) = true ↔
        ∀ m ∈ ms, exceptIsError m.1 = true)) := by
  have h1 : exceptIsError (ensembleForward ms) = true ↔ ballots ms = [] := by
    by_cases hb : ballots ms = []
    · rw [ensembleForward, if_pos hb]
      simp [exceptIsError, hb]
    · rw [ensembleForward, if_neg hb]
      simp [exceptIsError, hb]
  refine ⟨h1, fun hw => h1.trans ?_⟩
  rw [ballots, List.flatten_eq_nil_iff]
  constructor
  · intro hall m hm
    cases hm1 : m.1 with
    | error e => simp [exceptIsError]
    | ok r =>
      exfalso
      have hmem := hall (memberBallots m) (List.mem_map_of_mem _ hm)
      simp only [memberBallots, hm1] at hmem
      rw [List.replicate_eq_nil_iff] at hmem
      have := hw m hm
      omega
  · intro hall bl hbl
    obtain ⟨m, hm, rfl⟩ := List.mem_map.mp hbl
    have herr := hall m hm
    cases hm1 : m.1 with
    | error e => simp [memberBallots, hm1]
    | ok r =>
      rw [hm1] at herr
      simp [exceptIsError] at herr

/-- A one-member all-weights-positive configuration whose only member fails. -/
def oneFailingMember : List Member := [(Except.error "model down", 1)]

/-- Witness for `ensemble_error_iff_no_ballots`: with the all-positive-weight
configuration `oneFailingMember`, failing is equivalent to every member
failing. -/
theorem ensemble_error_iff_no_ballots_witness :
    (∀ m ∈ oneFailingMember, 1 ≤ m.2) ∧
    (exceptIsError (ensembleForward oneFailingMember) = true ↔
      ∀ m ∈ oneFailingMember, exceptIsError m.1 = true) :=
  ⟨by decide, (ensemble_error_iff_no_ballots oneFailingMember).2 (by decide)⟩

/-- The claim's own example, `(A,X), (A,Y), (B,Y)` with weight 1 each
(`A = Hardware`, `B = Software`, `X = Low`, `Y = High`). -/
def splitVoteA : List Member :=
  [(Except.ok ("Hardware", "Low"), 1), (Except.ok ("Hardware", "High"), 1),
   (Except.ok ("Software", "High"), 1)]

/-- A weighted instance whose combined winner `(Hardware, High)` is no single
member's predicted pair: category votes are Hardware 3 / Software 2 /
Network 2, priority votes are Low 3 / High 4. -/
def splitVoteB : List Member :=
  [(Except.ok ("Hardware", "Low"), 3), (Except.ok ("Software", "High"), 2),
   (Except.ok ("Network", "High"), 2)]

/-- C10: category and priority are resolved by two independent per-field
tallies: the example members `(A,X), (A,Y), (B,Y)` combine to `(A, Y)`, and
on `splitVoteB` the returned pair equals no successful member's predicted
pair. -/
theorem ensemble_fields_voted_independently :
    (∃ r, ensembleForward splitVoteA = Except.ok r ∧
      r.category = "Hardware" ∧ r.priority = "High") ∧
    (∃ r, ensembleForward splitVoteB = Except.ok r ∧
      r.category = "Hardware" ∧ r.priority = "High" ∧
      ∀ m ∈ splitVoteB, m.1 ≠ Except.ok ("Hardware", "High")) := by
  constructor
  · refine ⟨_, by rw [ensembleForward, if_neg (by decide : ¬(ballots splitVoteA = []))],
      by decide, by decide⟩
  · refine ⟨_, by rw [ensembleForward, if_neg (by decide : ¬(ballots splitVoteB = []))],
      by decide, by decide, by decide⟩

/-- C9: the refinement reward is `0.5` per field that is present and
(stripped, lowercased) in its vocabulary and `0.0` per absent or invalid
field; consequently it is always one of `{0, 0.5, 1}` and lies in `[0, 1]`. -/
theorem reward_half_per_valid_field (p : PredOut) :
    reward_function p =
      (if categoryFieldValid p then (1 : ℚ) / 2 else 0) +
      (if priorityFieldValid p then (1 : ℚ) / 2 else 0) ∧
    (reward_function p = 0 ∨ reward_function p = 1 / 2 ∨ reward_function p = 1) ∧
    0 ≤ reward_function p ∧ reward_function p ≤ 1 := by
  obtain ⟨c, pr⟩ := p
  have hmain : reward_function ⟨c, pr⟩ =
      (if categoryFieldValid ⟨c, pr⟩ then (1 : ℚ) / 2 else 0) +
      (if priorityFieldValid ⟨c, pr⟩ then (1 : ℚ) / 2 else 0) := by
    cases c <;> cases pr <;>
      simp only [reward_function, categoryFieldValid, priorityFieldValid] <;>
      split_ifs <;> first | contradiction | norm_num
  refine ⟨hmain, ?_, ?_, ?_⟩ <;> rw [hmain] <;> split_ifs <;> norm_num
